import Mathlib

/-!
# Verification of the biblio-bridge repository core

Shallow embedding of the claim-relevant parts of the three source files
`biblio-bridge.py`, `openalex.py` and `context_extract.py`, together with
theorems settling the frozen claims about them.

Modelling conventions:
* Python dicts appearing as JSON objects are embedded as structures with
  `Option` fields (`none` = key absent).  Where the code distinguishes a
  JSON `null` value from an absent key, the field type is
  `Option (Option _)` (`none` = absent, `some none` = null).
* The network layer is an oracle parameter: a function from identifier to
  the low-level outcome (raised exception vs. decoded JSON body).  The
  embedded fetchers are total functions of that oracle, mirroring the fact
  that the Python code catches every exception inside the fetch routine.
* Python `list.sort()` on `(int, str)` tuples sorts ascending,
  lexicographically by position and then by the word (code-point order).
  Stability is irrelevant here because equal sort keys are equal tuples,
  so every correct sorting algorithm returns the same list; we embed the
  sort as `List.insertionSort` over that key order (kept structurally
  recursive so that concrete runs evaluate by `decide`).
* Python `set` iteration order is unspecified; wherever the code turns a
  set into a list we fix first-occurrence order.  Every verified property
  about such lists is insensitive to the enumeration order (membership,
  duplicate-freeness, counts).
-/

namespace BiblioBridge

/-! ## The sort key used by both abstract reconstructions
(`words_with_positions.sort()`) -/

/-- Code-point lexicographic strict order on character lists: exactly the
comparison Python performs on `str` (and Lean's `String` order). -/
def lexLt : List Char → List Char → Bool
  | [], [] => false
  | [], _ :: _ => true
  | _ :: _, [] => false
  | a :: as, b :: bs =>
    if a.toNat < b.toNat then true
    else if b.toNat < a.toNat then false
    else lexLt as bs

theorem lexLt_irrefl : ∀ x : List Char, lexLt x x = false
  | [] => rfl
  | a :: as => by simp [lexLt, lexLt_irrefl as]

theorem lexLt_trans : ∀ {x y z : List Char},
    lexLt x y = true → lexLt y z = true → lexLt x z = true
  | [], [], _ :: _, _, _ => rfl
  | [], _ :: _, _ :: _, _, _ => rfl
  | [], y, [], _, h₂ => by cases y <;> simp [lexLt] at h₂
  | _ :: _, y, [], _, h₂ => by cases y <;> simp [lexLt] at h₂
  | _ :: _, [], _ :: _, h₁, _ => by simp [lexLt] at h₁
  | a :: as, b :: bs, c :: cs, h₁, h₂ => by
    simp only [lexLt] at h₁ h₂ ⊢
    split_ifs at h₁ h₂ ⊢ <;>
      first
        | rfl
        | exact absurd h₁ (by decide)
        | exact absurd h₂ (by decide)
        | exact lexLt_trans h₁ h₂
        | (exfalso; omega)

theorem lexLt_asymm {x y : List Char} (h : lexLt x y = true) : lexLt y x = false := by
  cases h2 : lexLt y x
  · rfl
  · have := lexLt_trans h h2
    rw [lexLt_irrefl] at this
    exact absurd this (by simp)

theorem lexLt_antisymm : ∀ {x y : List Char},
    lexLt x y = false → lexLt y x = false → x = y
  | [], [], _, _ => rfl
  | [], _ :: _, h, _ => by simp [lexLt] at h
  | _ :: _, [], _, h => by simp [lexLt] at h
  | a :: as, b :: bs, h₁, h₂ => by
    simp only [lexLt] at h₁ h₂
    split_ifs at h₁ h₂
    first
      | (exact absurd h₁ (by decide))
      | (exact absurd h₂ (by decide))
      | (rename_i hab hba
         have hn : a.toNat = b.toNat := by omega
         have hval : a = b := Char.eq_of_val_eq (UInt32.ext hn)
         rw [hval, lexLt_antisymm h₁ h₂])

/-- Python tuple order `(pos, word) <= (pos', word')`: by position, ties
broken by code-point comparison of the words. -/
def pairLE (a b : Nat × String) : Bool :=
  Nat.blt a.1 b.1 || (a.1 == b.1 && !(lexLt b.2.data a.2.data))

/-- `pairLE` as a decidable relation, for `List.insertionSort`. -/
def PairLE (a b : Nat × String) : Prop := pairLE a b = true

instance : DecidableRel PairLE := fun a b => by
  unfold PairLE; infer_instance

theorem pairLE_iff {a b : Nat × String} :
    PairLE a b ↔ a.1 < b.1 ∨ (a.1 = b.1 ∧ lexLt b.2.data a.2.data = false) := by
  simp [PairLE, pairLE, Nat.blt_eq, Bool.not_eq_true']

instance : IsTotal (Nat × String) PairLE := by
  constructor
  intro ⟨p, w⟩ ⟨q, v⟩
  rcases Nat.lt_trichotomy p q with h | h | h
  · exact Or.inl (pairLE_iff.mpr (Or.inl h))
  · cases hx : lexLt v.data w.data
    · exact Or.inl (pairLE_iff.mpr (Or.inr ⟨h, hx⟩))
    · exact Or.inr (pairLE_iff.mpr (Or.inr ⟨h.symm, lexLt_asymm hx⟩))
  · exact Or.inr (pairLE_iff.mpr (Or.inl h))

/-- Transitivity of the non-strict order `¬ (v < u)` induced by `lexLt`. -/
theorem lexLt_le_trans {u v w : List Char} (huv : lexLt u v = false)
    (hvw : lexLt v w = false) : lexLt u w = false := by
  cases huw : lexLt u w
  · rfl
  · exfalso
    cases hvu : lexLt v u
    · have h := lexLt_antisymm huv hvu
      rw [h, hvw] at huw
      exact absurd huw (by simp)
    · have h := lexLt_trans hvu huw
      rw [hvw] at h
      exact absurd h (by simp)

instance : IsTrans (Nat × String) PairLE := by
  constructor
  intro ⟨p, w⟩ ⟨q, v⟩ ⟨r, u⟩ h₁ h₂
  rcases pairLE_iff.mp h₁ with h₁ | ⟨h₁, hw₁⟩ <;>
    rcases pairLE_iff.mp h₂ with h₂ | ⟨h₂, hw₂⟩
  · exact pairLE_iff.mpr (Or.inl (by omega))
  · exact pairLE_iff.mpr (Or.inl (by omega))
  · exact pairLE_iff.mpr (Or.inl (by omega))
  · exact pairLE_iff.mpr (Or.inr ⟨by omega, lexLt_le_trans hw₂ hw₁⟩)

instance : IsAntisymm (Nat × String) PairLE := by
  constructor
  intro ⟨p, w⟩ ⟨q, v⟩ h₁ h₂
  rcases pairLE_iff.mp h₁ with h₁ | ⟨h₁, hw₁⟩ <;>
    rcases pairLE_iff.mp h₂ with h₂ | ⟨h₂, hw₂⟩ <;> try omega
  have : w.data = v.data := lexLt_antisymm hw₂ hw₁
  exact Prod.ext (by omega) (String.ext this)

/-! ## Abstract reconstruction (`openalex.py` lines 29-36,
`biblio-bridge.py` lines 37-47) -/

/-- One inverted index: dict iteration order is the list order; each entry
maps a word to its list of zero-based positions. -/
abbrev InvertedIndex := List (String × List Nat)

/-- `[(pos, word) for word, positions in abstract_index.items() for pos in positions]`. -/
def flattenIndex (idx : InvertedIndex) : List (Nat × String) :=
  idx.flatMap (fun wp => wp.2.map (fun pos => (pos, wp.1)))

/-- `words_with_positions.sort()` followed by extraction of the words
(`[word for pos, word in words_with_positions]`). -/
def sortedWords (idx : InvertedIndex) : List String :=
  (List.insertionSort PairLE (flattenIndex idx)).map (fun pw => pw.2)

/-- Abstract reconstruction of `biblio-bridge.py` `fetch_openalex_data`
(lines 37-47).  The argument is `work.get("abstract_inverted_index", {})`:
`none` models a JSON `null` (the `is not None` check fails), `some []`
models an absent key or an empty index. -/
def reconstructAbstract (idx : Option InvertedIndex) : String :=
  match idx with
  | none => "No abstract available"
  | some l =>
    let words := sortedWords l
    if words.isEmpty then "No abstract available"
    else " ".intercalate words

/-- Python `str.lower()` as used in the comparison with `"abstract"`.
Python lowercases the full Unicode range, but no character outside
`A`-`Z` lowercases to any of the ASCII letters of `"abstract"`, so ASCII
lowering decides `word.lower() == "abstract"` identically. -/
def lowerAscii (s : String) : String :=
  String.mk (s.data.map Char.toLower)

/-- The word list joined by the batch fetcher of `openalex.py`
(`fetch_single`, line 33): position-sorted words with every word whose
Python `lower()` is `"abstract"` removed. -/
def batchAbstractWords (idx : InvertedIndex) : List String :=
  (sortedWords idx).filter (fun w => lowerAscii w != "abstract")

/-- Abstract reconstruction of `openalex.py` `fetch_single` (lines 29-36).
The `if abstract_index:` truthiness test sends `null`, an absent key and
an empty dict all to the sentinel (all are modelled by `none` or `some []`). -/
def reconstructAbstractBatch (idx : Option InvertedIndex) : String :=
  match idx with
  | none => "No abstract available"
  | some l =>
    if l.isEmpty then "No abstract available"
    else
      let words := batchAbstractWords l
      if words.isEmpty then "No abstract available"
      else " ".intercalate words

/-- Modelled from the spec (§4.1): reconstruction "by sorting all
(position, word) pairs by position ascending and concatenating the words
with single spaces", with the sentinel for a missing or empty index and
whenever no words result (the claim demands the sentinel "never an empty
string").  The spec leaves the relative order of equal positions open; we
read "sorting all (position, word) pairs" as sorting the pairs. -/
def reconstructSpec (idx : Option InvertedIndex) : String :=
  match idx with
  | none => "No abstract available"
  | some l =>
    let words := sortedWords l
    if words.isEmpty then "No abstract available"
    else " ".intercalate words

example : reconstructAbstract (some [("the", [0, 3]), ("fox", [1])]) = "the fox the" := by decide

example : reconstructAbstract (some [("fox", [1]), ("the", [0, 3])]) = "the fox the" := by decide

example : reconstructAbstractBatch (some [("Abstract", [0]), ("fox", [1])]) = "fox" := by decide

example : reconstructAbstractBatch (some [("Abstract", [0])]) = "No abstract available" := by decide

/-! ## The crawl of `biblio-bridge.py` (module level, lines 98-157)

The crawl drives `fetch_openalex_data` as a black box; at this level a
fetch outcome is either an error dict (`"error" in ref_data`) or a
success carrying the record's `referenced_works` list.  The oracle
`fetch` supplies that outcome per identifier (the module fetches each
identifier through the same pure interface, so repeated calls agree). -/

/-- Outcome of one `fetch_openalex_data` call as the crawl observes it:
`.error msg` when `"error" in result`, `.ok refs` otherwise with `refs`
the record's `referenced_works`. -/
abbrev CrawlFetch := Except String (List String)

/-- Everything a crawl run does that the claims speak about. -/
structure CrawlRun where
  /-- Identifiers passed to `fetch_openalex_data`, in call order. -/
  fetches : List String
  /-- Whether `initial_data_<doi>.json` was written (seed success). -/
  savedInitial : Bool
  /-- Identifiers whose records were written under `dl0/` (depth 1). -/
  savedDl0 : List String
  /-- Identifiers whose records were written under `dl1/` (depth 2). -/
  savedDl1 : List String
  /-- The top-level error printed before `exit()`, if the seed failed. -/
  report : Option String
  deriving DecidableEq, Repr

/-- `second_level_refs`: the concatenation, in depth-1 call order, of the
`referenced_works` of every successfully fetched depth-1 identifier
(line 128; errored fetches contribute nothing). -/
def secondLevelRefs (fetch : String → CrawlFetch) (referencedIds : List String) : List String :=
  referencedIds.flatMap (fun r => match fetch r with | .ok rs => rs | .error _ => [])

/-- `unique_second_level_refs = list(set(second_level_refs) - processed_ids)`
(line 137) where `processed_ids = set(referenced_ids)` (line 118).  Python
enumerates the set in an unspecified order; we fix first-occurrence order,
which realizes the same set without duplicates. -/
def uniqueSecondLevelRefs (fetch : String → CrawlFetch) (referencedIds : List String) :
    List String :=
  ((secondLevelRefs fetch referencedIds).filter (fun x => !(referencedIds.contains x))).dedup

/-- The module-level crawl of `biblio-bridge.py` (seed fetch line 102,
abort lines 103-105, depth-1 loop lines 122-131, depth-2 frontier and
loop lines 136-150).  `processed_ids` starts as `set(referenced_ids)`;
the seed is never added to it. -/
def crawlRun (fetch : String → CrawlFetch) (seed : String) : CrawlRun :=
  match fetch seed with
  | .error e =>
    { fetches := [seed], savedInitial := false, savedDl0 := [], savedDl1 := [],
      report := some e }
  | .ok referencedIds =>
    let frontier2 := uniqueSecondLevelRefs fetch referencedIds
    { fetches := seed :: (referencedIds ++ frontier2),
      savedInitial := true,
      savedDl0 := referencedIds.filter (fun r => (fetch r).isOk),
      savedDl1 := frontier2.filter (fun r => (fetch r).isOk),
      report := none }

/-- Two permuted pair lists have the same `insertionSort` under the
antisymmetric total order `PairLE`: the sorted form is canonical. -/
theorem insertionSort_perm_invariant {l1 l2 : List (Nat × String)} (h : l1.Perm l2) :
    List.insertionSort PairLE l1 = List.insertionSort PairLE l2 :=
  List.eq_of_perm_of_sorted
    ((List.perm_insertionSort _ _).trans (h.trans (List.perm_insertionSort _ _).symm))
    (List.sorted_insertionSort _ _) (List.sorted_insertionSort _ _)

/-- Every word of the sorted word list is a key of the inverted index. -/
theorem mem_sortedWords_key {idx : InvertedIndex} {w : String} (hw : w ∈ sortedWords idx) :
    ∃ e ∈ idx, e.1 = w := by
  unfold sortedWords at hw
  obtain ⟨pw, hmem, hpw⟩ := List.mem_map.mp hw
  have h2 : pw ∈ flattenIndex idx := (List.perm_insertionSort PairLE _).mem_iff.mp hmem
  unfold flattenIndex at h2
  obtain ⟨e, he, hpe⟩ := List.mem_flatMap.mp h2
  obtain ⟨pos, hpos, heq⟩ := List.mem_map.mp hpe
  refine ⟨e, he, ?_⟩
  rw [← heq] at hpw
  simpa using hpw

/-! ## Raw provider data (the JSON fields both fetchers consume) -/

/-- A `subfield` / `field` / `domain` object inside `primary_topic`. -/
structure RawSub where
  display_name : Option String
  deriving DecidableEq, Repr

/-- A `primary_topic` object.  The three nested objects use
`Option (Option _)`: `none` = key absent, `some none` = JSON null
(on which Python's `.get` chain raises `AttributeError`). -/
structure RawTopic where
  display_name : Option String
  subfield : Option (Option RawSub)
  field : Option (Option RawSub)
  domain : Option (Option RawSub)
  deriving DecidableEq, Repr

/-- One work object of the provider response.  `authorships` keeps, per
authorship, `author.display_name` when present (`none` = the `author` or
`display_name` key is missing, yielding `"Unknown"`).  For `title` and
`id` a JSON null is modelled like an absent key. -/
structure RawWork where
  id : Option String
  title : Option String
  abstract_inverted_index : Option InvertedIndex
  authorships : List (Option String)
  publication_year : Option Int
  cited_by_count : Option Int
  primary_topic : Option (Option RawTopic)
  referenced_works : List String
  deriving DecidableEq, Repr

/-- A decoded response body: a single work (`"id" in data`), a `results`
envelope, or a dict with neither key (in which case the code indexes the
default `[{}]`, finds a falsy work and reports no results). -/
inductive RawResponse where
  | single (w : RawWork)
  | resultsList (ws : List RawWork)
  | neither
  deriving DecidableEq, Repr

/-- The canonical work record both fetchers build (dict keys as fields;
each author dict `{"name": n}` is represented by `n`). -/
structure WorkRecord where
  id : Option String
  title : String
  abstract : String
  authors : List String
  publication_year : Option Int
  cited_by_count : Int
  primary_topic : String
  subfield_topic : String
  field_topic : String
  domain_topic : String
  referenced_works : List String
  deriving DecidableEq, Repr

/-- A fetch returns either a work record or an error dict — never raises. -/
inductive FetchResult where
  | ok (r : WorkRecord)
  | err (msg : String)
  deriving DecidableEq, Repr

/-- Whether a result is an error dict (`"error" in result`). -/
def FetchResult.isErr : FetchResult → Bool
  | .ok _ => false
  | .err _ => true

/-! ## Text cleanup of `openalex.py` (lines 38-44) -/

/-- `.replace("‐", "-").replace("–", "-")`: a one-character
pattern with a one-character replacement substitutes character-wise. -/
def dashFix (s : String) : String :=
  String.mk (s.data.map (fun c =>
    if c = '‐' then '-' else if c = '–' then '-' else c))

/-- `['<', '/', 's', 'c', 'p', '>']`, the closing tag of the
`<scp>(.*?)</scp>` pattern. -/
def scpClose : List Char := ['<', '/', 's', 'c', 'p', '>']

/-- `['<', 's', 'c', 'p', '>']`, the opening tag. -/
def scpOpen : List Char := ['<', 's', 'c', 'p', '>']

/-- Scan for the earliest `</scp>` (no intervening newline, since `.`
does not match a newline); return the characters before it and those
after it. -/
def findClose : List Char → Option (List Char × List Char)
  | [] => none
  | c :: rest =>
    if scpClose.isPrefixOf (c :: rest) then some ([], (c :: rest).drop 6)
    else if c = '\n' then none
    else (findClose rest).map (fun p => (c :: p.1, p.2))

/-- `re.sub(r'<scp>(.*?)</scp>', r'\1', text)`: leftmost non-overlapping
matches, non-greedy inner text, replaced by the inner text; the
replacement is not rescanned.  The fuel argument only drives structural
recursion; every step consumes at least one character, so starting it at
the text length never exhausts it. -/
def scpStripAux : Nat → List Char → List Char
  | 0, cs => cs
  | _ + 1, [] => []
  | fuel + 1, c :: rest =>
    if scpOpen.isPrefixOf (c :: rest) then
      match findClose ((c :: rest).drop 5) with
      | some (inner, after) => inner ++ scpStripAux fuel after
      | none => c :: scpStripAux fuel rest
    else c :: scpStripAux fuel rest

/-- Strip `<scp>…</scp>` markup, keeping the inner text. -/
def scpStrip (s : String) : String :=
  String.mk (scpStripAux s.data.length s.data)

example : scpStrip "a <scp>Bold</scp> move" = "a Bold move" := by decide

/-! ## The batch fetcher of `openalex.py` (`fetch_single`, `fetch_batch`,
`_fetch_openalex_data_batch`, lines 6-80) -/

/-- `primary_topic.get(key, {}).get("display_name", default)` for one of
the nested `subfield` / `field` / `domain` objects: absent key falls back
to the default, a JSON null raises `AttributeError` (Python's message
punctuation is elided). -/
def subDisplay (pt : Option RawTopic) (proj : RawTopic → Option (Option RawSub))
    (dflt : String) : Except String String :=
  match pt with
  | none => .ok dflt
  | some t =>
    match proj t with
    | none => .ok dflt
    | some none => .error "NoneType object has no attribute get"
    | some (some o) => .ok (o.display_name.getD dflt)

/-- Lines 51, 59-62: `primary_topic = work.get("primary_topic", {}) or {}`
(collapsing absent and null to an empty dict), then the four
independently-defaulted topic strings; a null nested object raises and
the exception escapes to the enclosing `try`. -/
def processTopics (w : RawWork) : Except String (String × String × String × String) :=
  let pt : Option RawTopic :=
    match w.primary_topic with
    | some (some t) => some t
    | _ => none
  do
    let sub ← subDisplay pt (fun t => t.subfield) "Unknown subfield"
    let fld ← subDisplay pt (fun t => t.field) "Unknown field"
    let dom ← subDisplay pt (fun t => t.domain) "Unknown domain"
    return ((pt.bind (fun t => t.display_name)).getD "Unknown topic", sub, fld, dom)

/-- `fetch_single` of `openalex.py` (lines 8-66).  `net` is the oracle for
`session.get` + `response.json()`: `.error e` is any exception raised
there (timeout, transport error, the non-2xx `raise_for_status`,
undecodable body), all captured by the single `except Exception` clause
as an error dict embedding the identifier.  `.resultsList []` models a
present-but-empty `results` list, whose `[0]` raises `IndexError` inside
the same `try`. -/
def fetchSingle (net : String → Except String RawResponse) (identifier : String) :
    FetchResult :=
  match net identifier with
  | .error e => .err ("Failed to fetch " ++ identifier ++ ": " ++ e)
  | .ok .neither => .err ("No results for " ++ identifier)
  | .ok (.resultsList []) =>
    .err ("Failed to fetch " ++ identifier ++ ": list index out of range")
  | .ok (.single w) | .ok (.resultsList (w :: _)) =>
    match processTopics w with
    | .error e => .err ("Failed to fetch " ++ identifier ++ ": " ++ e)
    | .ok (p, sub, fld, dom) =>
      .ok {
        id := some (w.id.getD ""),
        title := scpStrip (dashFix (w.title.getD "No title available")),
        abstract := scpStrip (dashFix (reconstructAbstractBatch w.abstract_inverted_index)),
        authors := w.authorships.map (fun a => a.getD "Unknown"),
        publication_year := w.publication_year,
        cited_by_count := w.cited_by_count.getD 0,
        primary_topic := p,
        subfield_topic := sub,
        field_topic := fld,
        domain_topic := dom,
        referenced_works := w.referenced_works }

/-- `fetch_batch` (lines 68-71): `asyncio.gather` runs the per-identifier
tasks concurrently and returns their results in task order, so a batch
maps to its results positionally; `return_exceptions=True` never fires
because `fetch_single` catches every exception itself. -/
def fetchBatch (net : String → Except String RawResponse) (batch : List String) :
    List FetchResult :=
  batch.map (fetchSingle net)

/-- `range(0, len(identifiers), 5)` (line 75): the batch start offsets. -/
def batchStarts (ids : List String) : List Nat :=
  (List.range ((ids.length + 4) / 5)).map (fun k => 5 * k)

/-- `identifiers[i:i + 5]` (line 76). -/
def batchOf (ids : List String) (i : Nat) : List String :=
  (ids.drop i).take 5

/-- `_fetch_openalex_data_batch` (lines 73-80): sequential batches of 5,
results extended in batch order. -/
def fetchAll (net : String → Except String RawResponse) (ids : List String) :
    List FetchResult :=
  (batchStarts ids).flatMap (fun i => fetchBatch net (batchOf ids i))

/-! ## The synchronous fetcher of `biblio-bridge.py`
(`fetch_openalex_data`, lines 5-95) -/

/-- The three exception classes `fetch_openalex_data` catches, with the
data its messages embed. -/
inductive BiblioNetFailure where
  | timeout
  | requestFailed (e : String)
  | badJson (e : String)
  deriving DecidableEq, Repr

/-- The error messages of lines 90-95. -/
def biblioErrMsg (identifier : String) : BiblioNetFailure → String
  | .timeout => "Request timed out after 10 seconds for " ++ identifier
  | .requestFailed e => "API request failed for " ++ identifier ++ ": " ++ e
  | .badJson e => "Invalid JSON response for " ++ identifier ++ ": " ++ e

/-- Lines 57-70: the topic chain of `biblio-bridge.py`.  An absent
`primary_topic` key makes every `.get` fall back to its per-line default
dict; a null `primary_topic` or a null nested object raises
`AttributeError`, which lines 71-85 catch locally. -/
def biblioTopics (ptOpt : Option (Option RawTopic)) :
    Except String (String × String × String × String) :=
  match ptOpt with
  | none => .ok ("Unknown topic", "Unknown subfield", "Unknown field", "Unknown domain")
  | some none => .error "NoneType object has no attribute get"
  | some (some t) =>
    do
      let sub ← subDisplay (some t) (fun x => x.subfield) "Unknown subfield"
      let fld ← subDisplay (some t) (fun x => x.field) "Unknown field"
      let dom ← subDisplay (some t) (fun x => x.domain) "Unknown domain"
      return (t.display_name.getD "Unknown topic", sub, fld, dom)

/-- `fetch_openalex_data` of `biblio-bridge.py` (lines 5-95).  The found
check (line 35) is `data.get("results") or "id" in data`: an empty
`results` list is falsy, so it reports no results rather than indexing.
An empty `authorships` list yields the error dict of line 53, as the
function's docstring states. -/
def fetchOpenalexData (net : String → Except BiblioNetFailure RawResponse)
    (identifier : String) : FetchResult :=
  match net identifier with
  | .error f => .err (biblioErrMsg identifier f)
  | .ok .neither => .err ("No results found for " ++ identifier)
  | .ok (.resultsList []) => .err ("No results found for " ++ identifier)
  | .ok (.single w) | .ok (.resultsList (w :: _)) =>
    let abstract_text := reconstructAbstract w.abstract_inverted_index
    let authors := w.authorships.map (fun a => a.getD "Unknown")
    if authors.isEmpty then .err ("No authors available for " ++ identifier)
    else
      let base : WorkRecord := {
        id := w.id,
        title := w.title.getD "No title available",
        abstract := abstract_text,
        authors := authors,
        publication_year := w.publication_year,
        cited_by_count := w.cited_by_count.getD 0,
        primary_topic := "Unknown topic",
        subfield_topic := "Unknown subfield",
        field_topic := "Unknown field",
        domain_topic := "Unknown domain",
        referenced_works := w.referenced_works }
      match biblioTopics w.primary_topic with
      | .ok (p, sub, fld, dom) =>
        .ok { base with
          primary_topic := p, subfield_topic := sub,
          field_topic := fld, domain_topic := dom }
      | .error _ => .ok base

/-! ## The network builder of `context_extract.py`
(`process_json_files`, lines 54-124) -/

/-- The fields of a persisted record that the builder reads. -/
structure ParsedRecord where
  id : Option String
  title : Option String
  abstract : Option String
  deriving DecidableEq, Repr

/-- A directory listing entry: basename plus the outcome of
`open` + `json.load` (`.error` = the exception of lines 89-91). -/
abbrev DirEntry := String × Except String ParsedRecord

/-- `resulting_metadata` on disk: `none` = the directory is missing. -/
structure MetadataDirs where
  dl0 : Option (List DirEntry)
  dl1 : Option (List DirEntry)
  deriving Repr

/-- A `works` dict value. -/
structure NodeData where
  title : String
  key_terms : List String
  deriving DecidableEq, Repr

/-- One output node `{id, title, key_terms}`. -/
structure Node where
  id : String
  title : String
  key_terms : List String
  deriving DecidableEq, Repr

/-- One output edge `{source, target, weight}`; the floating-point
similarity value is abstracted as a rational (only its comparison with 0
matters to the builder). -/
structure Edge where
  source : String
  target : String
  weight : ℚ
  deriving DecidableEq, Repr

/-- What `process_json_files` does: return the error dict of line 64 or
73, return the success dict with the written network (we let the final
save of lines 117-124 succeed), or raise an uncaught `IndexError` out of
the edge loop (which indexes the similarity matrix by file index while a
failed file contributed no text). -/
inductive ProcessResult where
  | errorDict (msg : String)
  | network (nodes : List Node) (edges : List Edge)
  | crash (msg : String)
  deriving DecidableEq, Repr

/-- Whether a result is the error dict. -/
def ProcessResult.isErrorDict : ProcessResult → Bool
  | .errorDict _ => true
  | _ => false

/-- Python `name.endswith(".json")`, computed on the character list. -/
def endsWithJson (s : String) : Bool :=
  ['.', 'j', 's', 'o', 'n'].isSuffixOf s.data

/-- `[f for f in os.listdir(path) if f.endswith(".json")]` (lines 67-69). -/
def jsonFilesOf (entries : List DirEntry) : List DirEntry :=
  entries.filter (fun f => endsWithJson f.1)

/-- Assignment `works[work_id] = value` on a Python dict: an existing key
keeps its position and gets the new value, a new key is appended. -/
def upsert (m : List (String × NodeData)) (k : String) (v : NodeData) :
    List (String × NodeData) :=
  if m.any (fun e => e.1 = k) then m.map (fun e => if e.1 = k then (k, v) else e)
  else m ++ [(k, v)]

/-- `f"{title} {abstract}"` with the two `.get` defaults (lines 83-85). -/
def fileText (r : ParsedRecord) : String :=
  r.title.getD "No title available" ++ " " ++ r.abstract.getD "No abstract available"

/-- One iteration of the loop of lines 78-91: a parsed file stores its
record under `data.get("id", basename)` and appends its text; a file
that fails to parse stores an error entry under its basename — and no
text. -/
def buildStep (kt : String → List String) (acc : List (String × NodeData) × List String)
    (f : DirEntry) : List (String × NodeData) × List String :=
  match f.2 with
  | .ok r =>
    let text := fileText r
    (upsert acc.1 (r.id.getD f.1) ⟨r.title.getD "No title available", kt text⟩,
     acc.2 ++ [text])
  | .error _ => (upsert acc.1 f.1 ⟨"Error", []⟩, acc.2)

/-- The loop of lines 78-91 building `works` and `texts`; `kt` is the
external key-term extractor (`extract_key_terms`). -/
def buildWorks (kt : String → List String) (files : List DirEntry) :
    List (String × NodeData) × List String :=
  files.foldl (buildStep kt) ([], [])

/-- The key under which a file's entry lands in `works`: the record's
`id` when the file parsed and has one, else the basename (line 82), and
the basename for a file that failed to parse (line 91). -/
def nodeKey (f : DirEntry) : String :=
  match f.2 with
  | .ok r => r.id.getD f.1
  | .error _ => f.1

/-- `basename.replace(".json", "")` (lines 105-106): every occurrence of
the five-character pattern is removed, left to right, non-overlapping.
The fuel only drives structural recursion and is never exhausted when it
starts at the text length. -/
def stripJsonAux : Nat → List Char → List Char
  | 0, cs => cs
  | _ + 1, [] => []
  | fuel + 1, c :: rest =>
    if ['.', 'j', 's', 'o', 'n'].isPrefixOf (c :: rest) then
      stripJsonAux fuel ((c :: rest).drop 5)
    else c :: stripJsonAux fuel rest

/-- `os.path.basename(file).replace(".json", "")`. -/
def stripJson (s : String) : String :=
  String.mk (stripJsonAux s.data.length s.data)

example : stripJson "W123.json" = "W123" := by decide

/-- `for i in range(n): for j in range(i + 1, n)` (lines 100-101). -/
def pairIndices (n : Nat) : List (Nat × Nat) :=
  (List.range n).flatMap
    (fun i => ((List.range n).filter (fun j => i < j)).map (fun j => (i, j)))

/-- The edge loop of lines 99-108 over the file list: emit an edge iff
the similarity strictly exceeds 0, endpoints being the basenames with
`".json"` removed. -/
def buildEdges (sim : Nat → Nat → ℚ) (names : List String) : List Edge :=
  (pairIndices names.length).filterMap
    (fun ij =>
      if 0 < sim ij.1 ij.2 then
        some ⟨stripJson (names.getD ij.1 ""), stripJson (names.getD ij.2 ""), sim ij.1 ij.2⟩
      else none)

/-- `all_files` (lines 67-69): the `.json` entries of `dl0`, extended by
those of `dl1` when deeper levels are included and `dl1` exists. -/
def allFilesOf (dl0Entries : List DirEntry) (dl1 : Option (List DirEntry))
    (includeDeeper : Bool) : List DirEntry :=
  jsonFilesOf dl0Entries ++
    (match dl1 with
     | some dl1Entries => if includeDeeper then jsonFilesOf dl1Entries else []
     | none => [])

/-- The basenames of the collected files, in file order. -/
def fileNames (dl0Entries : List DirEntry) (dl1 : Option (List DirEntry))
    (includeDeeper : Bool) : List String :=
  (allFilesOf dl0Entries dl1 includeDeeper).map (fun f => f.1)

/-- `process_json_files(base_dir, output_file, include_deeper_levels)`
(lines 54-124).  `sim` abstracts `compute_similarity_matrix` as a
function of the text list (the builder only reads entries and compares
them with 0); `kt` abstracts `extract_key_terms`. -/
def processJsonFiles (sim : List String → Nat → Nat → ℚ) (kt : String → List String)
    (baseDir : String) (dirs : MetadataDirs) (includeDeeper : Bool) : ProcessResult :=
  let dl0Path := baseDir ++ "/dl0"
  match dirs.dl0 with
  | none => .errorDict ("Directory " ++ dl0Path ++ " does not exist")
  | some dl0Entries =>
    let dl1Path : Option String :=
      if includeDeeper && dirs.dl1.isSome then some (baseDir ++ "/dl1") else none
    let allFiles := allFilesOf dl0Entries dirs.dl1 includeDeeper
    if allFiles.isEmpty then
      .errorDict ("No JSON files found in " ++ dl0Path ++ " or " ++ dl1Path.getD "None")
    else
      let wt := buildWorks kt allFiles
      let nodes := wt.1.map (fun e => Node.mk e.1 e.2.title e.2.key_terms)
      if wt.2.length < 2 then .network nodes []
      else if wt.2.length < allFiles.length then .crash "IndexError"
      else .network nodes (buildEdges (sim wt.2) (allFiles.map (fun f => f.1)))

/-- The nodes of a built network (empty for the other outcomes). -/
def ProcessResult.nodeList : ProcessResult → List Node
  | .network ns _ => ns
  | _ => []

/-- The edges of a built network (empty for the other outcomes). -/
def ProcessResult.edgeList : ProcessResult → List Edge
  | .network _ es => es
  | _ => []

/-! # Theorems

## Claims C1 and C8: the crawl -/

/-- A concrete fetch oracle for refuting C1: the seed's reference list
holds the same identifier twice. -/
def cexFetch : String → CrawlFetch := fun s =>
  if s = "S" then .ok ["A", "A"] else if s = "A" then .ok [] else .error "not found"

/-- C1 counterexample: with a seed whose reference list is `["A", "A"]`,
the depth-1 loop iterates the raw list, so the crawl fetches `A` twice —
refuting "no identifier is fetched twice" and "any identifier appearing
twice in a depth's reference lists [is] never re-fetched". -/
theorem crawl_duplicate_fetch_cex :
    (crawlRun cexFetch "S").fetches = ["S", "A", "A"] ∧
    (crawlRun cexFetch "S").fetches.count "A" = 2 := by decide

/-- C1 (amended): `processed_ids` starts as the set of the seed's
reference ids — not `{seed}` — and the depth-1 loop fetches every
occurrence of that list as-is.  Dedup only happens between depths: the
depth-2 frontier is duplicate-free and disjoint from the depth-1
reference list, so when the depth-1 list is itself duplicate-free and the
seed appears in neither list, no identifier is fetched twice. -/
theorem crawl_dedup_amended (fetch : String → CrawlFetch) (seed : String)
    (refs : List String) (h : fetch seed = .ok refs) :
    (crawlRun fetch seed).fetches = seed :: (refs ++ uniqueSecondLevelRefs fetch refs) ∧
    (uniqueSecondLevelRefs fetch refs).Nodup ∧
    (∀ x ∈ uniqueSecondLevelRefs fetch refs, x ∉ refs) ∧
    (refs.Nodup → seed ∉ refs → seed ∉ uniqueSecondLevelRefs fetch refs →
      (crawlRun fetch seed).fetches.Nodup) := by
  have hfetches : (crawlRun fetch seed).fetches =
      seed :: (refs ++ uniqueSecondLevelRefs fetch refs) := by
    unfold crawlRun
    rw [h]
  have hnodup : (uniqueSecondLevelRefs fetch refs).Nodup := List.nodup_dedup _
  have hdisj : ∀ x ∈ uniqueSecondLevelRefs fetch refs, x ∉ refs := by
    intro x hx
    unfold uniqueSecondLevelRefs at hx
    have := List.mem_dedup.mp hx
    have := List.mem_filter.mp this
    simpa using this.2
  refine ⟨hfetches, hnodup, hdisj, ?_⟩
  intro hrefs hseed1 hseed2
  rw [hfetches]
  refine List.nodup_cons.mpr ⟨?_, ?_⟩
  · intro hmem
    rcases List.mem_append.mp hmem with hmem | hmem
    · exact hseed1 hmem
    · exact hseed2 hmem
  · exact List.Nodup.append hrefs hnodup
      (List.disjoint_right.mpr hdisj)

/-- C1 witness: a crawl whose reference lists are duplicate-free and
avoid the seed fetches each identifier exactly once. -/
theorem crawl_dedup_amended_witness :
    (crawlRun (fun s => if s = "S" then .ok ["A"] else if s = "A" then .ok ["B"]
      else .error "not found") "S").fetches.Nodup :=
  (crawl_dedup_amended _ "S" ["A"] rfl).2.2.2 (by decide) (by decide) (by decide)

/-- C8: if the seed fetch itself errors, the crawl reports that top-level
error, performs zero further fetches and persists nothing
(`biblio-bridge.py` lines 102-110: the error check precedes every write
and every further fetch). -/
theorem seed_failure_aborts (fetch : String → CrawlFetch) (seed e : String)
    (h : fetch seed = .error e) :
    crawlRun fetch seed =
      { fetches := [seed], savedInitial := false, savedDl0 := [], savedDl1 := [],
        report := some e } := by
  unfold crawlRun
  rw [h]

/-- C8 witness: a concrete failing seed. -/
theorem seed_failure_aborts_witness :
    crawlRun (fun _ => .error "boom") "S" =
      { fetches := ["S"], savedInitial := false, savedDl0 := [], savedDl1 := [],
        report := some "boom" } :=
  seed_failure_aborts (fun _ => .error "boom") "S" "boom" rfl

/-! ## Claims C3 and C4: the batch fetch scheduler -/

/-- Concatenating, over the batch starts `0, 5, 10, …`, the image of each
five-element slice recovers the image of the whole list. -/
theorem range_flatMap_batches {β : Type} (f : String → β) :
    ∀ (n : Nat) (ids : List String), ids.length ≤ n →
      (List.range ((ids.length + 4) / 5)).flatMap
        (fun k => ((ids.drop (5 * k)).take 5).map f) = ids.map f := by
  intro n
  induction n with
  | zero =>
    intro ids h
    have hids : ids = [] := List.eq_nil_of_length_eq_zero (Nat.le_zero.mp h)
    subst hids
    rfl
  | succ n IH =>
    intro ids h
    match ids with
    | [] => rfl
    | x :: rest =>
      have hm : ((x :: rest).length + 4) / 5 = (((x :: rest).drop 5).length + 4) / 5 + 1 := by
        simp only [List.length_drop, List.length_cons]
        omega
      rw [hm, List.range_succ_eq_map, List.flatMap_cons, List.flatMap_map]
      have htail :
          (List.range ((((x :: rest).drop 5).length + 4) / 5)).flatMap
            (fun k => (((x :: rest).drop (5 * Nat.succ k)).take 5).map f) =
          ((x :: rest).drop 5).map f := by
        have hdropped : ∀ k : Nat,
            (x :: rest).drop (5 * Nat.succ k) = ((x :: rest).drop 5).drop (5 * k) := by
          intro k
          rw [List.drop_drop]
          congr 1
          omega
        simp only [hdropped]
        exact IH _ (by simp only [List.length_drop, List.length_cons] at h ⊢; omega)
      rw [htail]
      rw [Nat.mul_zero, List.drop_zero]
      rw [← List.map_append, List.take_append_drop]

/-- The scheduler is the per-identifier fetch mapped over the input. -/
theorem fetchAll_eq_map (net : String → Except String RawResponse) (ids : List String) :
    fetchAll net ids = ids.map (fetchSingle net) := by
  unfold fetchAll fetchBatch batchStarts batchOf
  rw [List.flatMap_map]
  exact range_flatMap_batches (fetchSingle net) ids.length ids le_rfl

/-- Each batch is a non-empty slice of at most five identifiers. -/
theorem batchOf_facts (ids : List String) :
    ∀ i ∈ batchStarts ids, batchOf ids i ≠ [] ∧ (batchOf ids i).length ≤ 5 := by
  intro i hi
  unfold batchStarts at hi
  obtain ⟨k, hk, rfl⟩ := List.mem_map.mp hi
  have hk5 : k < (ids.length + 4) / 5 := List.mem_range.mp hk
  have hlen : (batchOf ids (5 * k)).length = min 5 (ids.length - 5 * k) := by
    simp [batchOf, List.length_take, List.length_drop]
  constructor
  · intro hnil
    rw [hnil] at hlen
    simp only [List.length_nil] at hlen
    omega
  · rw [hlen]
    omega

/-- C3: `fetchAll` never lets a per-identifier failure escape: the result
list is the per-identifier fetch applied position-wise (so one identifier
failing leaves every other position exactly what its own identifier
determines), and an exception from the network layer for an identifier
becomes the in-place error dict embedding that identifier.  The
scheduler itself is a total function: nothing raises past it, since
`fetch_single` catches every exception (`openalex.py` lines 65-66) and
`asyncio.gather` collects the per-task results (lines 68-71). -/
theorem fetchAll_error_isolation (net : String → Except String RawResponse)
    (ids : List String) :
    fetchAll net ids = ids.map (fetchSingle net) ∧
    (∀ i, i < ids.length →
      (fetchAll net ids).getD i (.err "") = fetchSingle net (ids.getD i "")) ∧
    (∀ identifier e, net identifier = .error e →
      fetchSingle net identifier =
        .err ("Failed to fetch " ++ identifier ++ ": " ++ e)) := by
  refine ⟨fetchAll_eq_map net ids, ?_, ?_⟩
  · intro i hi
    rw [fetchAll_eq_map net ids]
    rw [List.getD_eq_getElem _ _ (by simpa using hi), List.getD_eq_getElem _ _ hi]
    simp
  · intro identifier e he
    unfold fetchSingle
    rw [he]

/-- A concrete work for the scheduler witnesses. -/
def wOk : RawWork :=
  { id := some "https://openalex.org/W1", title := some "T",
    abstract_inverted_index := some [("the", [0])], authorships := [some "A Author"],
    publication_year := some 2020, cited_by_count := some 3,
    primary_topic := none, referenced_works := [] }

/-- A network oracle that fails exactly on identifier `"b"`. -/
def netFailB : String → Except String RawResponse := fun s =>
  if s = "b" then .error "boom" else .ok (.single wOk)

/-- C3 witness: with `b` failing inside `[a, b, c]`, every position is
its own identifier's result and `b`'s is the in-place error dict. -/
theorem fetchAll_error_isolation_witness :
    fetchAll netFailB ["a", "b", "c"] =
      [fetchSingle netFailB "a", fetchSingle netFailB "b", fetchSingle netFailB "c"] ∧
    fetchSingle netFailB "b" = .err "Failed to fetch b: boom" ∧
    (fetchAll netFailB ["a", "b", "c"]).getD 1 (.err "") =
      fetchSingle netFailB (["a", "b", "c"].getD 1 "") :=
  ⟨(fetchAll_error_isolation netFailB ["a", "b", "c"]).1,
   (fetchAll_error_isolation netFailB ["a", "b", "c"]).2.2 "b" "boom" rfl,
   (fetchAll_error_isolation netFailB ["a", "b", "c"]).2.1 1 (by decide)⟩

/-- C4: `fetchAll` returns one result per input identifier, in input
order (it equals the input mapped through the per-identifier fetch, and
`asyncio.gather` already reassembles each batch in task order regardless
of completion order), and the batches it processes are the consecutive
slices `identifiers[i:i+5]` for `i = 0, 5, 10, …` — non-empty, at most
five long, concatenating back to the input. -/
theorem fetchAll_order_batching (net : String → Except String RawResponse)
    (ids : List String) :
    fetchAll net ids = ids.map (fetchSingle net) ∧
    (fetchAll net ids).length = ids.length ∧
    fetchAll net ids = (batchStarts ids).flatMap (fun i => fetchBatch net (batchOf ids i)) ∧
    (batchStarts ids).flatMap (fun i => batchOf ids i) = ids ∧
    (∀ i ∈ batchStarts ids, batchOf ids i ≠ [] ∧ (batchOf ids i).length ≤ 5) := by
  refine ⟨fetchAll_eq_map net ids, ?_, rfl, ?_, batchOf_facts ids⟩
  · rw [fetchAll_eq_map net ids, List.length_map]
  · unfold batchStarts batchOf
    rw [List.flatMap_map]
    have h := range_flatMap_batches (fun s => s) ids.length ids le_rfl
    simpa using h

/-- C4 witness: six identifiers split into a batch of five and a batch
of one, and the output is position-for-position the input's fetches. -/
theorem fetchAll_order_batching_witness :
    fetchAll netFailB ["a", "b", "c", "d", "e", "f"] =
      ["a", "b", "c", "d", "e", "f"].map (fetchSingle netFailB) ∧
    batchOf ["a", "b", "c", "d", "e", "f"] 5 ≠ [] ∧
    (batchOf ["a", "b", "c", "d", "e", "f"] 5).length ≤ 5 :=
  ⟨(fetchAll_order_batching netFailB ["a", "b", "c", "d", "e", "f"]).1,
   (fetchAll_order_batching netFailB ["a", "b", "c", "d", "e", "f"]).2.2.2.2 5 (by decide)⟩

/-! ## Claim C5: the empty-author policy -/

/-- A successfully delivered work whose `authorships` list is empty. -/
def wNoAuthors : RawWork :=
  { id := some "https://openalex.org/W9", title := some "T",
    abstract_inverted_index := some [("the", [0])], authorships := [],
    publication_year := none, cited_by_count := none,
    primary_topic := none, referenced_works := [] }

/-- An oracle delivering `wNoAuthors` for every identifier. -/
def netNoAuthors : String → Except BiblioNetFailure RawResponse :=
  fun _ => .ok (.single wNoAuthors)

/-- C5 counterexample: `fetch_openalex_data` of `biblio-bridge.py`
(lines 52-53), given a perfectly healthy response whose authorship list
is empty, returns the error dict its docstring announces — an
ErrorResult from a non-network, non-transport, non-parse condition,
refuting "empty authors are preserved as-is, not fatal" for this
fetcher. -/
theorem empty_authors_cex :
    fetchOpenalexData netNoAuthors "X" = .err "No authors available for X" ∧
    (fetchOpenalexData netNoAuthors "X").isErr = true := by decide

/-- C5 (amended): the two fetchers disagree.  The batch fetcher of
`openalex.py` preserves an empty authorship list as an empty `authors`
sequence in a successful record; the synchronous fetcher of
`biblio-bridge.py` treats it as fatal and returns the
"No authors available" error dict. -/
theorem empty_authors_amended :
    (∀ (net : String → Except String RawResponse) (identifier : String) (w : RawWork)
      (topics : String × String × String × String),
      net identifier = .ok (.single w) → w.authorships = [] →
      processTopics w = .ok topics →
      ∃ r, fetchSingle net identifier = .ok r ∧ r.authors = []) ∧
    (∀ (net : String → Except BiblioNetFailure RawResponse) (identifier : String)
      (w : RawWork),
      net identifier = .ok (.single w) → w.authorships = [] →
      fetchOpenalexData net identifier =
        .err ("No authors available for " ++ identifier)) := by
  constructor
  · intro net identifier w topics hnet hauth htop
    obtain ⟨p, s, f, d⟩ := topics
    simp only [fetchSingle, hnet, htop]
    refine ⟨_, rfl, ?_⟩
    simp [hauth]
  · intro net identifier w hnet hauth
    simp only [fetchOpenalexData, hnet, hauth]
    simp

/-- C5 witness: the same authorless work through both fetchers. -/
theorem empty_authors_amended_witness :
    (∃ r, fetchSingle (fun _ => .ok (.single wNoAuthors)) "X" = .ok r ∧ r.authors = []) ∧
    fetchOpenalexData netNoAuthors "X" = .err "No authors available for X" :=
  ⟨empty_authors_amended.1 (fun _ => .ok (.single wNoAuthors)) "X" wNoAuthors
      ("Unknown topic", "Unknown subfield", "Unknown field", "Unknown domain") rfl rfl rfl,
   empty_authors_amended.2 netNoAuthors "X" wNoAuthors rfl rfl⟩

/-! ## Claims C2 and C9: abstract reconstruction -/

/-- C2 counterexample: the batch fetcher does not join all
position-sorted words — it drops the word `"Abstract"` (line 33 of
`openalex.py`), so on the index `{"Abstract": [0], "fox": [1]}` it
returns `"fox"` where sort-and-join (the claim's description, embodied
by `reconstructSpec`) yields `"Abstract fox"`. -/
theorem abstract_reconstruction_cex :
    reconstructAbstractBatch (some [("Abstract", [0]), ("fox", [1])]) ≠
      reconstructSpec (some [("Abstract", [0]), ("fox", [1])]) ∧
    reconstructAbstractBatch (some [("Abstract", [0]), ("fox", [1])]) = "fox" ∧
    reconstructSpec (some [("Abstract", [0]), ("fox", [1])]) = "Abstract fox" := by decide

/-- C2 (amended): the synchronous fetcher of `biblio-bridge.py`
reconstructs exactly as the claim says — sort all (position, word) pairs
ascending, join with single spaces, sentinel for a missing or empty
index, never an empty string — and the result is independent of dict
iteration order; the batch fetcher of `openalex.py` agrees whenever no
index word lowercases to `"abstract"` (its extra filter is claim C9).
The claim's own example evaluates to `"the fox the"` under either key
order. -/
theorem abstract_reconstruction_amended :
    (∀ idx : Option InvertedIndex, reconstructAbstract idx = reconstructSpec idx) ∧
    (∀ idx idx2 : InvertedIndex, idx.Perm idx2 →
      reconstructAbstract (some idx) = reconstructAbstract (some idx2)) ∧
    (∀ idx : InvertedIndex, (∀ e ∈ idx, lowerAscii e.1 ≠ "abstract") →
      reconstructAbstractBatch (some idx) = reconstructSpec (some idx)) ∧
    reconstructAbstract none = "No abstract available" ∧
    reconstructAbstract (some []) = "No abstract available" ∧
    reconstructAbstractBatch none = "No abstract available" ∧
    reconstructAbstractBatch (some []) = "No abstract available" ∧
    reconstructAbstract (some [("the", [0, 3]), ("fox", [1])]) = "the fox the" ∧
    reconstructAbstract (some [("fox", [1]), ("the", [0, 3])]) = "the fox the" := by
  refine ⟨fun _ => rfl, ?_, ?_, rfl, rfl, rfl, rfl, by decide, by decide⟩
  · intro idx idx2 h
    have hs : sortedWords idx = sortedWords idx2 := by
      unfold sortedWords flattenIndex
      rw [insertionSort_perm_invariant (List.Perm.flatMap_right _ h)]
    simp only [reconstructAbstract, hs]
  · intro idx h
    cases idx with
    | nil => rfl
    | cons a l =>
      have hfilter : batchAbstractWords (a :: l) = sortedWords (a :: l) := by
        unfold batchAbstractWords
        apply List.filter_eq_self.mpr
        intro w hw
        obtain ⟨e, he, rfl⟩ := mem_sortedWords_key hw
        simpa using h e he
      simp only [reconstructAbstractBatch, reconstructSpec, hfilter, List.isEmpty_cons,
        Bool.false_eq_true, if_false]

/-- C2 witness: the two key orders of the claim's example agree, and the
batch fetcher agrees with sort-and-join on an abstract-free index. -/
theorem abstract_reconstruction_amended_witness :
    reconstructAbstract (some [("fox", [1]), ("the", [0, 3])]) =
      reconstructAbstract (some [("the", [0, 3]), ("fox", [1])]) ∧
    reconstructAbstractBatch (some [("the", [0, 3]), ("fox", [1])]) =
      reconstructSpec (some [("the", [0, 3]), ("fox", [1])]) :=
  ⟨abstract_reconstruction_amended.2.1 _ _ (List.Perm.swap ("the", [0, 3]) ("fox", [1]) []),
   abstract_reconstruction_amended.2.2.1 _ (by decide)⟩

/-- C9: the batch fetcher removes, after position-sorting and before
joining, every word whose lowercase form is `"abstract"` — so no joined
word lowercases to `"abstract"` — and when the removal leaves no words
at all it returns the `"No abstract available"` sentinel even for a
non-empty inverted index. -/
theorem batch_abstract_filter (idx : InvertedIndex) :
    (∀ w ∈ batchAbstractWords idx, lowerAscii w ≠ "abstract") ∧
    (batchAbstractWords idx = [] →
      reconstructAbstractBatch (some idx) = "No abstract available") := by
  constructor
  · intro w hw
    have hmem := List.mem_filter.mp hw
    simpa using hmem.2
  · intro hempty
    cases idx with
    | nil => rfl
    | cons a l =>
      simp only [reconstructAbstractBatch, hempty, List.isEmpty_cons, Bool.false_eq_true,
        if_false, List.isEmpty_nil, if_true]

/-- C9 witness: an index holding only the word `"Abstract"` is non-empty
yet reconstructs to the sentinel. -/
theorem batch_abstract_filter_witness :
    ([("Abstract", [0])] : InvertedIndex) ≠ [] ∧
    reconstructAbstractBatch (some [("Abstract", [0])]) = "No abstract available" :=
  ⟨by decide, (batch_abstract_filter [("Abstract", [0])]).2 (by decide)⟩

/-! ## Claims C6, C7 and C10: the network builder -/

/-- The index pairs the edge loop visits are exactly `i < j < n`. -/
theorem mem_pairIndices {n i j : Nat} : (i, j) ∈ pairIndices n ↔ i < j ∧ j < n := by
  unfold pairIndices
  simp only [List.mem_flatMap, List.mem_map, List.mem_filter, List.mem_range,
    decide_eq_true_eq]
  constructor
  · rintro ⟨a, ha, b, ⟨hb, hab⟩, heq⟩
    cases heq
    exact ⟨hab, hb⟩
  · rintro ⟨hij, hj⟩
    exact ⟨i, by omega, j, ⟨hj, hij⟩, rfl⟩

/-- Every emitted edge has positive weight and sits on an index pair
`i < j`, its endpoints being the stripped basenames at those indices. -/
theorem mem_buildEdges {sim : Nat → Nat → ℚ} {names : List String} {e : Edge}
    (he : e ∈ buildEdges sim names) :
    0 < e.weight ∧ ∃ i j, i < j ∧ j < names.length ∧
      e.source = stripJson (names.getD i "") ∧
      e.target = stripJson (names.getD j "") ∧ e.weight = sim i j := by
  unfold buildEdges at he
  obtain ⟨⟨i, j⟩, hmem, hsome⟩ := List.mem_filterMap.mp he
  rw [mem_pairIndices] at hmem
  by_cases h0 : 0 < sim i j
  · rw [if_pos h0] at hsome
    cases hsome
    exact ⟨h0, i, j, hmem.1, hmem.2, rfl, rfl, rfl⟩
  · rw [if_neg h0] at hsome
    cases hsome

/-- With pairwise-distinct stripped basenames, distinct indices give
distinct endpoints. -/
theorem nodup_getD_ne {l : List String} (h : (l.map stripJson).Nodup) {i j : Nat}
    (hi : i < l.length) (hj : j < l.length) (hne : i ≠ j) :
    stripJson (l.getD i "") ≠ stripJson (l.getD j "") := by
  intro heq
  apply hne
  have hi2 : i < (l.map stripJson).length := by simpa using hi
  have hj2 : j < (l.map stripJson).length := by simpa using hj
  have hmap : (l.map stripJson)[i] = (l.map stripJson)[j] := by
    rw [List.getElem_map, List.getElem_map]
    rw [List.getD_eq_getElem _ _ hi, List.getD_eq_getElem _ _ hj] at heq
    exact heq
  exact (List.Nodup.getElem_inj_iff h).mp hmap

/-- Under distinct stripped basenames, the edge list never holds two
edges whose unordered endpoint pairs coincide with sources and targets
swapped (and in particular no self-loop can pair with itself). -/
theorem buildEdges_no_swap {sim : Nat → Nat → ℚ} {names : List String}
    (h : (names.map stripJson).Nodup) {e1 e2 : Edge}
    (h1 : e1 ∈ buildEdges sim names) (h2 : e2 ∈ buildEdges sim names) :
    ¬ (e1.source = e2.target ∧ e1.target = e2.source) := by
  rintro ⟨hst, hts⟩
  obtain ⟨-, i, j, hij, hj, hs1, ht1, -⟩ := mem_buildEdges h1
  obtain ⟨-, k, l, hkl, hl, hs2, ht2, -⟩ := mem_buildEdges h2
  have hil : i = l := by
    by_contra hne
    exact nodup_getD_ne h (by omega) hl hne (by rw [← hs1, ← ht2]; exact hst)
  have hjk : j = k := by
    by_contra hne
    exact nodup_getD_ne h (by omega) (by omega) hne (by rw [← ht1, ← hs2]; exact hts)
  omega

/-- Dict assignment adds exactly the assigned key to the key list. -/
theorem mem_upsert_keys {m : List (String × NodeData)} {k x : String} {v : NodeData} :
    x ∈ (upsert m k v).map (fun e => e.1) ↔ x ∈ m.map (fun e => e.1) ∨ x = k := by
  unfold upsert
  split_ifs with hany
  · rw [List.map_map]
    have hcomp : ((fun e : String × NodeData => e.1) ∘ fun e => if e.1 = k then (k, v) else e)
        = fun e : String × NodeData => e.1 := by
      funext e
      by_cases he : e.1 = k <;> simp [he]
    rw [hcomp]
    constructor
    · exact Or.inl
    · rintro (hx | rfl)
      · exact hx
      · obtain ⟨e, he, heq⟩ := List.any_eq_true.mp hany
        simp only [decide_eq_true_eq] at heq
        exact List.mem_map.mpr ⟨e, he, heq⟩
  · simp only [List.map_append, List.mem_append, List.map_cons, List.map_nil,
      List.mem_singleton]

/-- The keys accumulated by the works loop are the starting keys plus the
node key of every processed file. -/
theorem foldl_buildStep_keys (kt : String → List String) :
    ∀ (files : List DirEntry) (acc : List (String × NodeData) × List String) (x : String),
      (x ∈ (files.foldl (buildStep kt) acc).1.map (fun e => e.1)) ↔
        x ∈ acc.1.map (fun e => e.1) ∨ ∃ f ∈ files, nodeKey f = x := by
  intro files
  induction files with
  | nil => simp
  | cons f fs IH =>
    intro acc x
    rw [List.foldl_cons, IH]
    have hk : ∀ y, y ∈ (buildStep kt acc f).1.map (fun e : String × NodeData => e.1) ↔
        y ∈ acc.1.map (fun e : String × NodeData => e.1) ∨ y = nodeKey f := by
      intro y
      unfold buildStep nodeKey
      cases hf : f.2 with
      | ok r => exact mem_upsert_keys
      | error e => exact mem_upsert_keys
    rw [hk]
    simp only [List.mem_cons]
    constructor
    · rintro ((hx | rfl) | ⟨g, hg, hgx⟩)
      · exact Or.inl hx
      · exact Or.inr ⟨f, Or.inl rfl, rfl⟩
      · exact Or.inr ⟨g, Or.inr hg, hgx⟩
    · rintro (hx | ⟨g, (rfl | hg), hgx⟩)
      · exact Or.inl (Or.inl hx)
      · exact Or.inl (Or.inr hgx.symm)
      · exact Or.inr ⟨g, hg, hgx⟩

/-- The node identifiers of the built works are exactly the node keys of
the processed files. -/
theorem buildWorks_keys (kt : String → List String) (files : List DirEntry) (x : String) :
    x ∈ (buildWorks kt files).1.map (fun e => e.1) ↔ ∃ f ∈ files, nodeKey f = x := by
  unfold buildWorks
  rw [foldl_buildStep_keys]
  simp

/-- Inversion of `process_json_files` on a built network: the directory
existed, the file list was non-empty, the nodes are the works entries,
and the edges are empty (fewer than two texts) or the edge loop's
output over the file basenames. -/
theorem processJsonFiles_network_inv {sim : List String → Nat → Nat → ℚ}
    {kt : String → List String} {baseDir : String} {dirs : MetadataDirs} {deeper : Bool}
    {dl0Entries : List DirEntry} {nodes : List Node} {edges : List Edge}
    (hdl0 : dirs.dl0 = some dl0Entries)
    (h : processJsonFiles sim kt baseDir dirs deeper = .network nodes edges) :
    allFilesOf dl0Entries dirs.dl1 deeper ≠ [] ∧
    nodes = (buildWorks kt (allFilesOf dl0Entries dirs.dl1 deeper)).1.map
      (fun e => Node.mk e.1 e.2.title e.2.key_terms) ∧
    (edges = [] ∨
      edges = buildEdges (sim (buildWorks kt (allFilesOf dl0Entries dirs.dl1 deeper)).2)
        (fileNames dl0Entries dirs.dl1 deeper)) := by
  unfold processJsonFiles at h
  rw [hdl0] at h
  simp only at h
  split_ifs at h with hempty h2 hcrash
  · cases h
    refine ⟨?_, rfl, Or.inl rfl⟩
    intro hnil
    rw [hnil] at hempty
    simp at hempty
  · cases h
    refine ⟨?_, rfl, Or.inr rfl⟩
    intro hnil
    rw [hnil] at hempty
    simp at hempty

/-- A constant similarity matrix for the concrete builder runs. -/
def simOne : List String → Nat → Nat → ℚ := fun _ _ _ => 1

/-- A key-term extractor returning no terms. -/
def ktNone : String → List String := fun _ => []

/-- A filesystem whose `resulting_metadata/dl0` directory is missing. -/
def fsNoDl0 : MetadataDirs := { dl0 := none, dl1 := none }

/-- C6 counterexample: with the `dl0` input directory missing, the
builder returns the error dict of `context_extract.py` lines 62-64
immediately — it does not proceed to build a zero-node network. -/
theorem missing_dl0_cex :
    processJsonFiles simOne ktNone "resulting_metadata" fsNoDl0 false =
      .errorDict "Directory resulting_metadata/dl0 does not exist" ∧
    (processJsonFiles simOne ktNone "resulting_metadata" fsNoDl0 false).isErrorDict = true := by
  decide

/-- C6 (amended): a missing `dl0` directory makes the builder return an
error result naming that path; a present `dl0` with no `.json` files
(and no deeper level included) returns the no-files error naming the
paths; and a successfully built network never has zero nodes. -/
theorem missing_dl0_amended (sim : List String → Nat → Nat → ℚ) (kt : String → List String)
    (baseDir : String) (dirs : MetadataDirs) (deeper : Bool) :
    (dirs.dl0 = none →
      processJsonFiles sim kt baseDir dirs deeper =
        .errorDict ("Directory " ++ (baseDir ++ "/dl0") ++ " does not exist")) ∧
    (∀ dl0Entries, dirs.dl0 = some dl0Entries → deeper = false →
      jsonFilesOf dl0Entries = [] →
      processJsonFiles sim kt baseDir dirs deeper =
        .errorDict ("No JSON files found in " ++ (baseDir ++ "/dl0") ++ " or " ++ "None")) ∧
    (∀ nodes edges, processJsonFiles sim kt baseDir dirs deeper = .network nodes edges →
      nodes ≠ []) := by
  refine ⟨?_, ?_, ?_⟩
  · intro h0
    simp only [processJsonFiles, h0]
  · intro dl0Entries hdl0 hdeeper hjson
    subst hdeeper
    have hall : allFilesOf dl0Entries dirs.dl1 false = [] := by
      unfold allFilesOf
      rw [hjson]
      cases dirs.dl1 <;> simp
    simp only [processJsonFiles, hdl0, hall]
    simp
  · intro nodes edges h
    cases hdl0 : dirs.dl0 with
    | none =>
      rw [show processJsonFiles sim kt baseDir dirs deeper =
        .errorDict ("Directory " ++ (baseDir ++ "/dl0") ++ " does not exist") from by
          simp only [processJsonFiles, hdl0]] at h
      cases h
    | some dl0Entries =>
      obtain ⟨hne, hnodes, -⟩ := processJsonFiles_network_inv hdl0 h
      intro hnil
      obtain ⟨f, rest, hcons⟩ := List.exists_cons_of_ne_nil hne
      have hkey : nodeKey f ∈ (buildWorks kt (allFilesOf dl0Entries dirs.dl1 deeper)).1.map
          (fun e => e.1) :=
        (buildWorks_keys kt _ (nodeKey f)).mpr
          ⟨f, by rw [hcons]; exact List.mem_cons_self f rest, rfl⟩
      rw [hnodes] at hnil
      rw [List.map_eq_nil_iff.mp hnil] at hkey
      simp at hkey

/-- C6 witness: the two error branches at concrete inputs. -/
theorem missing_dl0_amended_witness :
    processJsonFiles simOne ktNone "resulting_metadata" fsNoDl0 false =
      .errorDict ("Directory " ++ ("resulting_metadata" ++ "/dl0") ++ " does not exist") ∧
    processJsonFiles simOne ktNone "resulting_metadata" (MetadataDirs.mk (some []) none) false =
      .errorDict ("No JSON files found in " ++ ("resulting_metadata" ++ "/dl0") ++
        " or " ++ "None") :=
  ⟨(missing_dl0_amended simOne ktNone "resulting_metadata" fsNoDl0 false).1 rfl,
   (missing_dl0_amended simOne ktNone "resulting_metadata"
      (MetadataDirs.mk (some []) none) false).2.1 [] rfl rfl rfl⟩

/-- Parsed records and directory layouts for the builder claims. -/
def recTA : ParsedRecord :=
  { id := some "https://openalex.org/W1", title := some "TA", abstract := some "alpha beta" }

/-- A second parsed record. -/
def recTB : ParsedRecord :=
  { id := some "https://openalex.org/W2", title := some "TB", abstract := some "beta gamma" }

/-- `dl0` holds `A.json` and `B.json`; `dl1` holds another `A.json`
(sharing its basename with the `dl0` file). -/
def fsDupName : MetadataDirs :=
  { dl0 := some [("A.json", .ok recTA), ("B.json", .ok recTB)],
    dl1 := some [("A.json", .ok recTA)] }

/-- `dl0` holds `A.json` and `B.json` only. -/
def fsTwo : MetadataDirs :=
  { dl0 := some [("A.json", .ok recTA), ("B.json", .ok recTB)], dl1 := none }

/-- C7 counterexample: with `include_deeper_levels`, a `dl1` file sharing
its basename with a `dl0` file makes the edge loop emit both `(A, B)`
and `(B, A)` — the endpoints are basenames, and distinct file indices
can carry equal basenames (it even emits the self-loop `(A, A)`). -/
theorem edge_both_directions_cex :
    Edge.mk "A" "B" 1 ∈ (processJsonFiles simOne ktNone "m" fsDupName true).edgeList ∧
    Edge.mk "B" "A" 1 ∈ (processJsonFiles simOne ktNone "m" fsDupName true).edgeList ∧
    Edge.mk "A" "A" 1 ∈ (processJsonFiles simOne ktNone "m" fsDupName true).edgeList := by
  decide

/-- C7 (amended): every emitted edge has weight strictly greater than 0
and comes from an index pair `i < j`; and provided the stripped
basenames of the collected files are pairwise distinct (true whenever
`dl0` and `dl1` share no basename), no two edges are source/target swaps
of one another — in particular `(a, b)` and `(b, a)` never both appear. -/
theorem edge_sparsity_amended (sim : List String → Nat → Nat → ℚ)
    (kt : String → List String) (baseDir : String) (dirs : MetadataDirs) (deeper : Bool)
    (dl0Entries : List DirEntry) (nodes : List Node) (edges : List Edge)
    (hdl0 : dirs.dl0 = some dl0Entries)
    (h : processJsonFiles sim kt baseDir dirs deeper = .network nodes edges) :
    (∀ e ∈ edges, 0 < e.weight) ∧
    (∀ e ∈ edges, ∃ i j, i < j ∧ j < (fileNames dl0Entries dirs.dl1 deeper).length ∧
      e.source = stripJson ((fileNames dl0Entries dirs.dl1 deeper).getD i "") ∧
      e.target = stripJson ((fileNames dl0Entries dirs.dl1 deeper).getD j "")) ∧
    (((fileNames dl0Entries dirs.dl1 deeper).map stripJson).Nodup →
      ∀ e1 ∈ edges, ∀ e2 ∈ edges,
        ¬ (e1.source = e2.target ∧ e1.target = e2.source)) := by
  obtain ⟨-, -, hedges⟩ := processJsonFiles_network_inv hdl0 h
  rcases hedges with rfl | rfl
  · refine ⟨?_, ?_, ?_⟩
    · intro e he
      simp at he
    · intro e he
      simp at he
    · intro _ e1 he1
      simp at he1
  · refine ⟨?_, ?_, ?_⟩
    · intro e he
      exact (mem_buildEdges he).1
    · intro e he
      obtain ⟨-, i, j, hij, hj, hs, ht, -⟩ := mem_buildEdges he
      exact ⟨i, j, hij, hj, hs, ht⟩
    · intro hnd e1 he1 e2 he2
      exact buildEdges_no_swap hnd he1 he2

/-- C7 witness: a run over distinct basenames, with its single edge. -/
theorem edge_sparsity_amended_witness :
    (0 : ℚ) < (Edge.mk "A" "B" (1 : ℚ)).weight ∧
    ¬ ((Edge.mk "A" "B" (1 : ℚ)).source = (Edge.mk "A" "B" (1 : ℚ)).target ∧
       (Edge.mk "A" "B" (1 : ℚ)).target = (Edge.mk "A" "B" (1 : ℚ)).source) :=
  ⟨(edge_sparsity_amended simOne ktNone "m" fsTwo false
      [("A.json", .ok recTA), ("B.json", .ok recTB)]
      [Node.mk "https://openalex.org/W1" "TA" [], Node.mk "https://openalex.org/W2" "TB" []]
      [Edge.mk "A" "B" 1] rfl (by decide)).1 (Edge.mk "A" "B" 1) (by decide),
   (edge_sparsity_amended simOne ktNone "m" fsTwo false
      [("A.json", .ok recTA), ("B.json", .ok recTB)]
      [Node.mk "https://openalex.org/W1" "TA" [], Node.mk "https://openalex.org/W2" "TB" []]
      [Edge.mk "A" "B" 1] rfl (by decide)).2.2 (by decide)
      (Edge.mk "A" "B" 1) (by decide) (Edge.mk "A" "B" 1) (by decide)⟩

/-- A record whose `id` differs from its filename. -/
def recCrossA : ParsedRecord := { id := some "c", title := some "T1", abstract := some "x" }

/-- A record whose `id` (`"a"`) equals the other file's trimmed name. -/
def recCrossB : ParsedRecord := { id := some "a", title := some "T2", abstract := some "y" }

/-- `dl0` holds `a.json` (record id `"c"`) and `b.json` (record id `"a"`). -/
def fsCross : MetadataDirs :=
  { dl0 := some [("a.json", .ok recCrossA), ("b.json", .ok recCrossB)], dl1 := none }

/-- C10 counterexample: file `a.json` carries record id `"c" ≠ "a"`, yet
its edge endpoint `"a"` *is* a node identifier — the id of `b.json`'s
record — so "the emitted edge endpoints are not equal to any node
identifier" fails; endpoints only avoid the node id of their own file. -/
theorem edge_endpoint_node_id_cex :
    (processJsonFiles simOne ktNone "m" fsCross false).edgeList = [Edge.mk "a" "b" 1] ∧
    (processJsonFiles simOne ktNone "m" fsCross false).nodeList.map Node.id = ["c", "a"] ∧
    recCrossA.id = some "c" ∧ stripJson "a.json" = "a" ∧ ("c" : String) ≠ "a" ∧
    "a" ∈ (processJsonFiles simOne ktNone "m" fsCross false).nodeList.map Node.id := by
  decide

/-- C10 (amended): in every built network each edge endpoint is a
collected file's basename with `".json"` occurrences removed, and each
node identifier is the node key of some collected file — the record's
`id` when the file parsed and has one, else the basename with its
`".json"` suffix intact (so the two naming schemes differ even in the
fallback).  Only under the extra premise that no node identifier equals
any stripped basename do the endpoints avoid all node identifiers. -/
theorem edge_endpoint_node_id_amended (sim : List String → Nat → Nat → ℚ)
    (kt : String → List String) (baseDir : String) (dirs : MetadataDirs) (deeper : Bool)
    (dl0Entries : List DirEntry) (nodes : List Node) (edges : List Edge)
    (hdl0 : dirs.dl0 = some dl0Entries)
    (h : processJsonFiles sim kt baseDir dirs deeper = .network nodes edges) :
    (∀ e ∈ edges, e.source ∈ (fileNames dl0Entries dirs.dl1 deeper).map stripJson ∧
      e.target ∈ (fileNames dl0Entries dirs.dl1 deeper).map stripJson) ∧
    (∀ nd ∈ nodes, ∃ f ∈ allFilesOf dl0Entries dirs.dl1 deeper, nd.id = nodeKey f) ∧
    (∀ f ∈ allFilesOf dl0Entries dirs.dl1 deeper, nodeKey f ∈ nodes.map Node.id) ∧
    ((∀ nd ∈ nodes, ∀ s ∈ (fileNames dl0Entries dirs.dl1 deeper).map stripJson,
        nd.id ≠ s) →
      ∀ e ∈ edges, ∀ nd ∈ nodes, e.source ≠ nd.id ∧ e.target ≠ nd.id) := by
  obtain ⟨-, hnodes, hedges⟩ := processJsonFiles_network_inv hdl0 h
  have hids : nodes.map Node.id =
      (buildWorks kt (allFilesOf dl0Entries dirs.dl1 deeper)).1.map (fun e => e.1) := by
    rw [hnodes, List.map_map]
    rfl
  have hsrc : ∀ e ∈ edges,
      e.source ∈ (fileNames dl0Entries dirs.dl1 deeper).map stripJson ∧
      e.target ∈ (fileNames dl0Entries dirs.dl1 deeper).map stripJson := by
    rcases hedges with rfl | rfl
    · intro e he
      simp at he
    · intro e he
      obtain ⟨-, i, j, hij, hj, hs, ht, -⟩ := mem_buildEdges he
      constructor
      · rw [hs, List.getD_eq_getElem _ _ (by omega)]
        exact List.mem_map.mpr ⟨_, List.getElem_mem _, rfl⟩
      · rw [ht, List.getD_eq_getElem _ _ hj]
        exact List.mem_map.mpr ⟨_, List.getElem_mem _, rfl⟩
  refine ⟨hsrc, ?_, ?_, ?_⟩
  · intro nd hnd
    have : nd.id ∈ nodes.map Node.id := List.mem_map.mpr ⟨nd, hnd, rfl⟩
    rw [hids] at this
    obtain ⟨f, hf, hfk⟩ := (buildWorks_keys kt _ nd.id).mp this
    exact ⟨f, hf, hfk.symm⟩
  · intro f hf
    rw [hids]
    exact (buildWorks_keys kt _ (nodeKey f)).mpr ⟨f, hf, rfl⟩
  · intro hdis e he nd hnd
    obtain ⟨hes, het⟩ := hsrc e he
    exact ⟨fun heq => hdis nd hnd e.source hes heq.symm,
           fun heq => hdis nd hnd e.target het heq.symm⟩

/-- C10 witness: a run whose record ids are full provider URIs, disjoint
from the stripped basenames, applied to its edge and first node. -/
theorem edge_endpoint_node_id_amended_witness :
    (Edge.mk "A" "B" (1 : ℚ)).source ≠ (Node.mk "https://openalex.org/W1" "TA" []).id ∧
    (Edge.mk "A" "B" (1 : ℚ)).target ≠ (Node.mk "https://openalex.org/W1" "TA" []).id :=
  (edge_endpoint_node_id_amended simOne ktNone "m" fsTwo false
    [("A.json", .ok recTA), ("B.json", .ok recTB)]
    [Node.mk "https://openalex.org/W1" "TA" [], Node.mk "https://openalex.org/W2" "TB" []]
    [Edge.mk "A" "B" 1] rfl (by decide)).2.2.2 (by decide)
    (Edge.mk "A" "B" 1) (by decide) (Node.mk "https://openalex.org/W1" "TA" []) (by decide)

end BiblioBridge
